import Mathlib

/-!
Shallow embedding of `src/pallets/quamtum-portal/src/quantum_portal_service.rs`
(the `QuantumPortalService` relay engine of ferrum-x-network).

Modelling conventions:
* `u64` chain ids and timestamps are `Nat` (the claims never exercise wraparound);
  the 256-bit transaction hash `H256` is a `Nat` (`H256::zero()` is `0`).
* Offchain storage (`StorageValueRef`) is an association list keyed by the `u64`
  that `storage_key` encodes.  The Rust `storage_key` builds the byte key
  `b"quantum-portal::tx::" ++ hex(be_bytes(key))`, an injective function of the
  `u64` key, so keying the model store by the `Nat` directly is faithful.
* Fallible external calls (`finalize`, `mine`, `get_transaction_status`) are
  response functions on the client record returning `Except ChainRequestError _`.
* Every service method is a function `Storage -> Res α × Storage × List Ev`:
  `Res.ok` models `Ok`, `Res.fail` models `Err` (the `?` operator), and
  `Res.panicked` models a Rust panic (`unwrap()` on `None`/`Err`, or `panic!`).
  The `List Ev` is an event trace recording which external submissions and
  storage mutations happened, used to state "finalize/mine was (not) invoked".
-/

namespace QP

/-- `TransactionStatus` from `chain_queries` as consumed by `is_tx_pending`. -/
inductive TransactionStatus where
  | Confirmed
  | Failed
  | Pending
  | NotFound
deriving DecidableEq, Repr

/-- `ChainRequestError`: the error type of `ChainRequestResult`.  Its variants
live in `chain_utils` (not needed by the claims); an opaque code suffices. -/
inductive ChainRequestError where
  | err (code : Nat)
deriving DecidableEq, Repr

/-- The `PendingTransaction` enum.
`MineTransaction(chain, remote_chain, timestamp, tx_id)`,
`FinalizeTransaction(chain, timestamp, tx_id)`, and the absence marker. -/
inductive PendingTransaction where
  | MineTransaction (chain remote_chain timestamp : Nat) (tx_id : Nat)
  | FinalizeTransaction (chain timestamp : Nat) (tx_id : Nat)
  | None
deriving DecidableEq, Repr

/-- `impl Default for PendingTransaction`: the default is `None`. -/
def PendingTransaction.default : PendingTransaction := PendingTransaction.None

/-- `const TIMEOUT: u64 = 3600 * 1000;` -/
def TIMEOUT : Nat := 3600 * 1000

/-- A `QuantumPortalClient`: chain id (`contract.chain_id`), clock (`now`), and
the three external RPCs as response functions.  `finalizeResp` models
`finalize(remote_chain)`, `mineResp` models `mine(remote_client)` keyed by the
remote client's chain id, `statusResp` models
`ChainQueries::get_transaction_status(contract.http_api, tx_id)`. -/
structure QuantumPortalClient where
  chain_id : Nat
  now : Nat
  finalizeResp : Nat → Except ChainRequestError (Option Nat)
  mineResp : Nat → Except ChainRequestError (Option Nat)
  statusResp : Nat → Except ChainRequestError TransactionStatus

/-- Offchain storage: at most one `PendingTransaction` per (encoded) `u64` key. -/
abbrev Storage := List (Nat × PendingTransaction)

/-- Read the single slot for a key (`StorageValueRef::get`). -/
def storageGet : Storage → Nat → Option PendingTransaction
  | [], _ => none
  | (k, v) :: rest, key => if k = key then some v else storageGet rest key

/-- Clear the slot for a key (`StorageValueRef::clear`). -/
def storageClear : Storage → Nat → Storage
  | [], _ => []
  | (k, v) :: rest, key =>
      if k = key then storageClear rest key else (k, v) :: storageClear rest key

/-- Overwrite the slot for a key (`StorageValueRef::set`). -/
def storageSet (st : Storage) (key : Nat) (v : PendingTransaction) : Storage :=
  (key, v) :: storageClear st key

/-- Trace events: external submission calls and storage mutations. -/
inductive Ev where
  | evFinalize (remote_chain : Nat)
  | evMine (remote_chain : Nat)
  | evSave (tx : PendingTransaction)
  | evClear (key : Nat)
deriving DecidableEq, Repr

/-- Outcome of a service method: `Ok`, `Err` (propagated by `?`), or a panic. -/
inductive Res (α : Type) where
  | ok (a : α)
  | fail (e : ChainRequestError)
  | panicked
deriving DecidableEq, Repr

/-- A computation result: outcome, final storage, event trace. -/
abbrev M (α : Type) := Res α × Storage × List Ev

/-- Sequencing: run `x`; on `Ok` continue with `f`, otherwise short-circuit
(Rust `?` for `fail`; a panic aborts). Traces accumulate. -/
def bindM {α β : Type} (x : M α) (f : α → Storage → M β) : M β :=
  match x with
  | (Res.ok a, st, tr) =>
      match f a st with
      | (r, st2, tr2) => (r, st2, tr ++ tr2)
  | (Res.fail e, st, tr) => (Res.fail e, st, tr)
  | (Res.panicked, st, tr) => (Res.panicked, st, tr)

/-- Prefix a trace onto a computation's trace. -/
def prependTrace {α : Type} (tr0 : List Ev) : M α → M α
  | (r, st, tr) => (r, st, tr0 ++ tr)

/-- `find_client_idx`: linear scan `position(|c| c.contract.chain_id == chain_id)`.
The Rust caller indexes `clients` with the unwrapped position; returning the
found client itself is the same lookup.  `none` means the Rust code panics. -/
def find_client_idx (clients : List QuantumPortalClient) (chain_id : Nat) :
    Option QuantumPortalClient :=
  clients.find? (fun c => c.chain_id == chain_id)

/-- `storage_key_for_tx`: the `u64` key a record is stored under; panics
(`none`) on the `None` variant ("tx is none. Cannot save"). -/
def storage_key_for_tx : PendingTransaction → Option Nat
  | PendingTransaction.MineTransaction c _ _ _ => some c
  | PendingTransaction.FinalizeTransaction c _ _ => some c
  | PendingTransaction.None => none

/-- `save_tx`: derive the key and `set` the slot; panics on `None`. -/
def save_tx (st : Storage) (tx : PendingTransaction) : M Unit :=
  match storage_key_for_tx tx with
  | none => (Res.panicked, st, [])
  | some key => (Res.ok (), storageSet st key tx, [Ev.evSave tx])

/-- `remove_transaction_from_db`: derive the key and `clear` the slot. -/
def remove_transaction_from_db (st : Storage) (t : PendingTransaction) : M Unit :=
  match storage_key_for_tx t with
  | none => (Res.panicked, st, [])
  | some key => (Res.ok (), storageClear st key, [Ev.evClear key])

/-- `stored_pending_transactions`: read the slot for `chain_id`; empty vec when
absent, a one-element vec when present. -/
def stored_pending_transactions (st : Storage) (chain_id : Nat) :
    M (List PendingTransaction) :=
  (Res.ok (match storageGet st chain_id with
           | none => []
           | some v => [v]),
   st, [])

/-- `is_tx_pending`: classify a stored record as still-live.
`None` panics ("tx is none"); the client for the record's first chain id is
resolved (panic when absent, via `unwrap`), the oracle is queried, and
`Confirmed` / `Failed` / timed-out `NotFound` remove the record and yield
`false`, while `Pending` / fresh `NotFound` yield `true` with no mutation. -/
def is_tx_pending (clients : List QuantumPortalClient) (st : Storage)
    (t : PendingTransaction) : M Bool :=
  match t with
  | PendingTransaction.None => (Res.panicked, st, [])
  | PendingTransaction.MineTransaction c1 _ timestamp tid =>
      is_tx_pending_go clients st t c1 timestamp tid
  | PendingTransaction.FinalizeTransaction c timestamp tid =>
      is_tx_pending_go clients st t c timestamp tid
where
  /-- Common body after destructuring `(chain_id1, _, timestamp, tx_id)`. -/
  is_tx_pending_go (clients : List QuantumPortalClient) (st : Storage)
      (t : PendingTransaction) (chain_id1 timestamp tid : Nat) : M Bool :=
    match find_client_idx clients chain_id1 with
    | none => (Res.panicked, st, [])
    | some client =>
        match client.statusResp tid with
        | Except.error e => (Res.fail e, st, [])
        | Except.ok TransactionStatus.Confirmed =>
            bindM (remove_transaction_from_db st t)
              (fun _ st2 => (Res.ok false, st2, []))
        | Except.ok TransactionStatus.Failed =>
            bindM (remove_transaction_from_db st t)
              (fun _ st2 => (Res.ok false, st2, []))
        | Except.ok TransactionStatus.Pending => (Res.ok true, st, [])
        | Except.ok TransactionStatus.NotFound =>
            if timestamp + TIMEOUT < client.now then
              bindM (remove_transaction_from_db st t)
                (fun _ st2 => (Res.ok false, st2, []))
            else (Res.ok true, st, [])

/-- `pending_transactions` filter loop: keep records classifying still-live.
The Rust code calls `self.is_tx_pending(t).unwrap()` inside the filter closure
(marked `// TODO: No unwrap here.`), so a classification `Err` becomes a panic. -/
def filter_pending (clients : List QuantumPortalClient) (st : Storage) :
    List PendingTransaction → M (List PendingTransaction)
  | [] => (Res.ok [], st, [])
  | t :: rest =>
      match is_tx_pending clients st t with
      | (Res.ok b, st2, tr) =>
          match filter_pending clients st2 rest with
          | (Res.ok l, st3, tr2) =>
              (Res.ok (if b then t :: l else l), st3, tr ++ tr2)
          | (Res.fail e, st3, tr2) => (Res.fail e, st3, tr ++ tr2)
          | (Res.panicked, st3, tr2) => (Res.panicked, st3, tr ++ tr2)
      | (Res.fail _, st2, tr) => (Res.panicked, st2, tr)
      | (Res.panicked, st2, tr) => (Res.panicked, st2, tr)

/-- `pending_transactions`: stored records for the chain, filtered by liveness. -/
def pending_transactions (clients : List QuantumPortalClient) (st : Storage)
    (chain_id : Nat) : M (List PendingTransaction) :=
  bindM (stored_pending_transactions st chain_id)
    (fun l st2 => filter_pending clients st2 l)

/-- The sentinel lock record: `FinalizeTransaction(9999, 0, H256::zero())`. -/
def lockTx : PendingTransaction := PendingTransaction.FinalizeTransaction 9999 0 0

/-- `lock_is_open`: true iff no record is stored under the sentinel id 9999. -/
def lock_is_open (st : Storage) : M Bool :=
  bindM (stored_pending_transactions st 9999)
    (fun tx st2 => (Res.ok tx.isEmpty, st2, []))

/-- `lock`: save the sentinel record. -/
def lock (st : Storage) : M Unit :=
  bindM (save_tx st lockTx) (fun _ st2 => (Res.ok (), st2, []))

/-- `remove_lock`: remove the sentinel record. -/
def remove_lock (st : Storage) : M Unit :=
  bindM (remove_transaction_from_db st lockTx) (fun _ st2 => (Res.ok (), st2, []))

/-- `process_pair`: the relay cycle for one chain pair.
Skips when a live pending record exists; otherwise resolves both clients
(panicking `unwrap` on a lookup miss), attempts `finalize`, then `mine` only if
finalize submitted nothing, persists the submitted record, and clears the lock. -/
def process_pair (clients : List QuantumPortalClient) (st : Storage)
    (remote_chain local_chain : Nat) : M Unit :=
  bindM (pending_transactions clients st local_chain) (fun live_txs st1 =>
    if live_txs.length > 0 then (Res.ok (), st1, [])
    else
      match find_client_idx clients local_chain with
      | none => (Res.panicked, st1, [])
      | some local_client =>
          match find_client_idx clients remote_chain with
          | none => (Res.panicked, st1, [])
          | some remote_client =>
              let now := local_client.now
              match local_client.finalizeResp remote_chain with
              | Except.error e => (Res.fail e, st1, [Ev.evFinalize remote_chain])
              | Except.ok (some fin_tx) =>
                  prependTrace [Ev.evFinalize remote_chain]
                    (bindM (save_tx st1
                        (PendingTransaction.FinalizeTransaction local_chain now fin_tx))
                      (fun _ st2 => remove_lock st2))
              | Except.ok none =>
                  match local_client.mineResp remote_client.chain_id with
                  | Except.error e =>
                      (Res.fail e, st1,
                       [Ev.evFinalize remote_chain, Ev.evMine remote_client.chain_id])
                  | Except.ok (some mine_tx) =>
                      prependTrace
                        [Ev.evFinalize remote_chain, Ev.evMine remote_client.chain_id]
                        (bindM (save_tx st1
                            (PendingTransaction.MineTransaction
                              local_chain remote_chain now mine_tx))
                          (fun _ st2 => remove_lock st2))
                  | Except.ok none =>
                      prependTrace
                        [Ev.evFinalize remote_chain, Ev.evMine remote_client.chain_id]
                        (remove_lock st1))

/-- `process_pair_with_lock`: benign skip when the sentinel slot is occupied;
otherwise acquire the lock, run `process_pair`, call `remove_lock` with its
result discarded (`self.remove_lock();`), then propagate the inner result via
`rv?`.  A panic inside `process_pair` aborts before the release runs. -/
def process_pair_with_lock (clients : List QuantumPortalClient) (st : Storage)
    (remote_chain local_chain : Nat) : M Unit :=
  bindM (lock_is_open st) (fun opn st1 =>
    if !opn then (Res.ok (), st1, [])
    else
      bindM (lock st1) (fun _ st2 =>
        bindM (stored_pending_transactions st2 9999) (fun _ st3 =>
          match process_pair clients st3 remote_chain local_chain with
          | (Res.panicked, st4, tr) => (Res.panicked, st4, tr)
          | (rv, st4, tr) =>
              match remove_lock st4 with
              | (Res.panicked, st5, tr2) => (Res.panicked, st5, tr ++ tr2)
              | (_, st5, tr2) =>
                  ((match rv with
                    | Res.ok _ => Res.ok ()
                    | Res.fail e => Res.fail e
                    | Res.panicked => Res.panicked), st5, tr ++ tr2))))

/-! ### Persisted binary format (SCALE codec of `PendingTransaction`)

`#[derive(Encode, Decode)]` on the enum yields the standard SCALE layout:
one tag byte (0 = `MineTransaction`, 1 = `FinalizeTransaction`, 2 = `None`)
followed by the fields in order, each `u64` as 8 little-endian bytes and the
`H256` as its 32 bytes (modelled as the 32 little-endian bytes of the `Nat`). -/

/-- `k` fixed-width little-endian bytes of `n`. -/
def encLE : Nat → Nat → List Nat
  | 0, _ => []
  | k + 1, n => n % 256 :: encLE k (n / 256)

/-- Read `k` little-endian bytes; return the value and the remaining input. -/
def decLE : Nat → List Nat → Option (Nat × List Nat)
  | 0, l => some (0, l)
  | _ + 1, [] => none
  | k + 1, b :: l =>
      match decLE k l with
      | none => none
      | some (n, r) => some (b + 256 * n, r)

/-- SCALE encoding of a `PendingTransaction`. -/
def encode : PendingTransaction → List Nat
  | PendingTransaction.MineTransaction c1 c2 ts tid =>
      0 :: (encLE 8 c1 ++ encLE 8 c2 ++ encLE 8 ts ++ encLE 32 tid)
  | PendingTransaction.FinalizeTransaction c ts tid =>
      1 :: (encLE 8 c ++ encLE 8 ts ++ encLE 32 tid)
  | PendingTransaction.None => [2]

/-- SCALE decoding of a `PendingTransaction`; requires full consumption. -/
def decode (l : List Nat) : Option PendingTransaction :=
  match l with
  | 0 :: rest =>
      match decLE 8 rest with
      | none => none
      | some (c1, r1) =>
          match decLE 8 r1 with
          | none => none
          | some (c2, r2) =>
              match decLE 8 r2 with
              | none => none
              | some (ts, r3) =>
                  match decLE 32 r3 with
                  | none => none
                  | some (tid, r4) =>
                      if r4 = [] then
                        some (PendingTransaction.MineTransaction c1 c2 ts tid)
                      else none
  | 1 :: rest =>
      match decLE 8 rest with
      | none => none
      | some (c, r1) =>
          match decLE 8 r1 with
          | none => none
          | some (ts, r2) =>
              match decLE 32 r2 with
              | none => none
              | some (tid, r3) =>
                  if r3 = [] then
                    some (PendingTransaction.FinalizeTransaction c ts tid)
                  else none
  | [2] => some PendingTransaction.None
  | _ => none

/-- Well-formedness of a model `PendingTransaction`: fields fit the Rust types
(`u64` chain ids and timestamps, 256-bit transaction hash). -/
def wf : PendingTransaction → Prop
  | PendingTransaction.MineTransaction c1 c2 ts tid =>
      c1 < 256 ^ 8 ∧ c2 < 256 ^ 8 ∧ ts < 256 ^ 8 ∧ tid < 256 ^ 32
  | PendingTransaction.FinalizeTransaction c ts tid =>
      c < 256 ^ 8 ∧ ts < 256 ^ 8 ∧ tid < 256 ^ 32
  | PendingTransaction.None => True

instance : DecidablePred wf := by
  intro t
  cases t <;> simp [wf] <;> infer_instance

/-! ### Helper lemmas -/

theorem decLE_encLE (k : Nat) :
    ∀ (n : Nat) (r : List Nat), n < 256 ^ k →
      decLE k (encLE k n ++ r) = some (n, r) := by
  induction k with
  | zero =>
      intro n r hn
      have hn0 : n = 0 := by simpa using hn
      subst hn0
      simp [encLE, decLE]
  | succ k ih =>
      intro n r hn
      have hdiv : n / 256 < 256 ^ k := by
        rw [Nat.div_lt_iff_lt_mul (by norm_num : 0 < 256)]
        calc n < 256 ^ (k + 1) := hn
        _ = 256 ^ k * 256 := by ring
      simp only [encLE, List.cons_append, decLE, List.append_eq,
        ih (n / 256) r hdiv, Nat.mod_add_div]

/-- Clearing a key really empties its slot. -/
theorem storageGet_storageClear (st : Storage) (k : Nat) :
    storageGet (storageClear st k) k = none := by
  induction st with
  | nil => simp [storageClear, storageGet]
  | cons hd tl ih =>
      obtain ⟨k', v⟩ := hd
      by_cases h : k' = k
      · simp [storageClear, h, ih]
      · simp [storageClear, h, storageGet, ih]

/-- Setting a key makes its slot hold the value. -/
theorem storageGet_storageSet (st : Storage) (k : Nat) (v : PendingTransaction) :
    storageGet (storageSet st k v) k = some v := by
  simp [storageSet, storageGet]

/-- The classifier's common body, when it answers `true`, mutates nothing and
emits no events. -/
theorem is_tx_pending_go_true_inert (clients : List QuantumPortalClient)
    (st : Storage) (t : PendingTransaction) (c ts tid : Nat)
    (st2 : Storage) (tr : List Ev)
    (h : is_tx_pending.is_tx_pending_go clients st t c ts tid =
      (Res.ok true, st2, tr)) :
    st2 = st ∧ tr = [] := by
  rw [is_tx_pending.is_tx_pending_go] at h
  split at h
  · simp at h
  · split at h
    · simp at h
    · cases hk : storage_key_for_tx t <;>
        simp [bindM, remove_transaction_from_db, hk] at h
    · cases hk : storage_key_for_tx t <;>
        simp [bindM, remove_transaction_from_db, hk] at h
    · rw [Prod.mk.injEq, Prod.mk.injEq] at h
      exact ⟨h.2.1.symm, h.2.2.symm⟩
    · split at h
      · cases hk : storage_key_for_tx t <;>
          simp [bindM, remove_transaction_from_db, hk] at h
      · rw [Prod.mk.injEq, Prod.mk.injEq] at h
        exact ⟨h.2.1.symm, h.2.2.symm⟩

/-- Full case analysis of the classifier on a `Mine` or `Finalize` record whose
first chain id resolves to `client`: one equation per oracle answer. -/
theorem is_tx_pending_cases (clients : List QuantumPortalClient) (st : Storage)
    (c c2 ts tid : Nat) (client : QuantumPortalClient) (t : PendingTransaction)
    (ht : t = PendingTransaction.MineTransaction c c2 ts tid ∨
          t = PendingTransaction.FinalizeTransaction c ts tid)
    (hf : find_client_idx clients c = some client) :
    (∀ e, client.statusResp tid = Except.error e →
      is_tx_pending clients st t = (Res.fail e, st, [])) ∧
    (client.statusResp tid = Except.ok TransactionStatus.Confirmed →
      is_tx_pending clients st t =
        (Res.ok false, storageClear st c, [Ev.evClear c])) ∧
    (client.statusResp tid = Except.ok TransactionStatus.Failed →
      is_tx_pending clients st t =
        (Res.ok false, storageClear st c, [Ev.evClear c])) ∧
    (client.statusResp tid = Except.ok TransactionStatus.Pending →
      is_tx_pending clients st t = (Res.ok true, st, [])) ∧
    (client.statusResp tid = Except.ok TransactionStatus.NotFound →
      (ts + TIMEOUT < client.now →
        is_tx_pending clients st t =
          (Res.ok false, storageClear st c, [Ev.evClear c])) ∧
      (¬ ts + TIMEOUT < client.now →
        is_tx_pending clients st t = (Res.ok true, st, []))) := by
  rcases ht with rfl | rfl <;>
    exact ⟨fun e hs => by
        simp [is_tx_pending, is_tx_pending.is_tx_pending_go, hf, hs, bindM,
          remove_transaction_from_db, storage_key_for_tx],
      fun hs => by
        simp [is_tx_pending, is_tx_pending.is_tx_pending_go, hf, hs, bindM,
          remove_transaction_from_db, storage_key_for_tx],
      fun hs => by
        simp [is_tx_pending, is_tx_pending.is_tx_pending_go, hf, hs, bindM,
          remove_transaction_from_db, storage_key_for_tx],
      fun hs => by
        simp [is_tx_pending, is_tx_pending.is_tx_pending_go, hf, hs, bindM,
          remove_transaction_from_db, storage_key_for_tx],
      fun hs => ⟨fun hts => by
          simp [is_tx_pending, is_tx_pending.is_tx_pending_go, hf, hs, hts,
            bindM, remove_transaction_from_db, storage_key_for_tx],
        fun hts => by
          simp [is_tx_pending, is_tx_pending.is_tx_pending_go, hf, hs, hts,
            bindM, remove_transaction_from_db, storage_key_for_tx]⟩⟩

/-- A classifier run that answers `true` mutates nothing and emits no events. -/
theorem is_tx_pending_true_inert (clients : List QuantumPortalClient)
    (st : Storage) (t : PendingTransaction) (st2 : Storage) (tr : List Ev)
    (h : is_tx_pending clients st t = (Res.ok true, st2, tr)) :
    st2 = st ∧ tr = [] := by
  cases t with
  | None => simp [is_tx_pending] at h
  | MineTransaction c1 c2 ts tid =>
      exact is_tx_pending_go_true_inert clients st _ c1 ts tid st2 tr h
  | FinalizeTransaction c ts tid =>
      exact is_tx_pending_go_true_inert clients st _ c ts tid st2 tr h

/-! ### Claim theorems -/

/-- C3: for a `Mine` or `Finalize` record whose oracle status is `NotFound`:
when `timestamp + TIMEOUT < client.now` (with `TIMEOUT` fixed at one hour,
3600000 ms) the classifier removes the stored record and returns `false`;
otherwise it returns `true` and leaves storage untouched. -/
theorem C3_notfound_timeout_policy (clients : List QuantumPortalClient)
    (st : Storage) (c c2 ts tid : Nat) (client : QuantumPortalClient)
    (t : PendingTransaction)
    (ht : t = PendingTransaction.MineTransaction c c2 ts tid ∨
          t = PendingTransaction.FinalizeTransaction c ts tid)
    (hf : find_client_idx clients c = some client)
    (hs : client.statusResp tid = Except.ok TransactionStatus.NotFound) :
    TIMEOUT = 3600000 ∧
    (ts + TIMEOUT < client.now →
      is_tx_pending clients st t =
        (Res.ok false, storageClear st c, [Ev.evClear c]) ∧
      storageGet (storageClear st c) c = none) ∧
    (¬ ts + TIMEOUT < client.now →
      is_tx_pending clients st t = (Res.ok true, st, [])) :=
  ⟨rfl,
   fun hts =>
     ⟨((is_tx_pending_cases clients st c c2 ts tid client t ht hf).2.2.2.2
        hs).1 hts,
      storageGet_storageClear st c⟩,
   fun hts =>
     ((is_tx_pending_cases clients st c c2 ts tid client t ht hf).2.2.2.2
        hs).2 hts⟩

/-- Oracle stub answering `NotFound` for every transaction id (chain 4). -/
def wClientNF : QuantumPortalClient :=
  { chain_id := 4, now := 5000000,
    finalizeResp := fun _ => Except.ok none,
    mineResp := fun _ => Except.ok none,
    statusResp := fun _ => Except.ok TransactionStatus.NotFound }

/-- Witness for C3 at a concrete timed-out `Finalize` record. -/
theorem C3_witness :
    find_client_idx [wClientNF] 4 = some wClientNF ∧
    wClientNF.statusResp 55 = Except.ok TransactionStatus.NotFound ∧
    (TIMEOUT = 3600000 ∧
     (100 + TIMEOUT < wClientNF.now →
       is_tx_pending [wClientNF]
           [(4, PendingTransaction.FinalizeTransaction 4 100 55)]
           (PendingTransaction.FinalizeTransaction 4 100 55) =
         (Res.ok false,
          storageClear [(4, PendingTransaction.FinalizeTransaction 4 100 55)] 4,
          [Ev.evClear 4]) ∧
       storageGet
         (storageClear [(4, PendingTransaction.FinalizeTransaction 4 100 55)] 4)
         4 = none) ∧
     (¬ 100 + TIMEOUT < wClientNF.now →
       is_tx_pending [wClientNF]
           [(4, PendingTransaction.FinalizeTransaction 4 100 55)]
           (PendingTransaction.FinalizeTransaction 4 100 55) =
         (Res.ok true,
          [(4, PendingTransaction.FinalizeTransaction 4 100 55)], []))) :=
  ⟨rfl, rfl,
   C3_notfound_timeout_policy [wClientNF]
     [(4, PendingTransaction.FinalizeTransaction 4 100 55)] 4 0 100 55
     wClientNF (PendingTransaction.FinalizeTransaction 4 100 55)
     (Or.inr rfl) rfl rfl⟩

/-- C4: the classifier returns `false` and removes the stored record on
`Confirmed` or `Failed`, returns `true` with no storage mutation on `Pending`;
hence oracle statuses `Pending, Pending, Confirmed` across three calls yield
`true, true, false` and the record's slot is empty after the third call. -/
theorem C4_terminal_statuses (st : Storage) (c c2 ts tid : Nat)
    (t : PendingTransaction)
    (ht : t = PendingTransaction.MineTransaction c c2 ts tid ∨
          t = PendingTransaction.FinalizeTransaction c ts tid) :
    (∀ clients (client : QuantumPortalClient),
      find_client_idx clients c = some client →
      (client.statusResp tid = Except.ok TransactionStatus.Confirmed →
        is_tx_pending clients st t =
          (Res.ok false, storageClear st c, [Ev.evClear c])) ∧
      (client.statusResp tid = Except.ok TransactionStatus.Failed →
        is_tx_pending clients st t =
          (Res.ok false, storageClear st c, [Ev.evClear c])) ∧
      (client.statusResp tid = Except.ok TransactionStatus.Pending →
        is_tx_pending clients st t = (Res.ok true, st, []))) ∧
    (∀ cs1 cs2 cs3 (cl1 cl2 cl3 : QuantumPortalClient),
      find_client_idx cs1 c = some cl1 →
      cl1.statusResp tid = Except.ok TransactionStatus.Pending →
      find_client_idx cs2 c = some cl2 →
      cl2.statusResp tid = Except.ok TransactionStatus.Pending →
      find_client_idx cs3 c = some cl3 →
      cl3.statusResp tid = Except.ok TransactionStatus.Confirmed →
      is_tx_pending cs1 st t = (Res.ok true, st, []) ∧
      is_tx_pending cs2 st t = (Res.ok true, st, []) ∧
      is_tx_pending cs3 st t =
        (Res.ok false, storageClear st c, [Ev.evClear c]) ∧
      storageGet (storageClear st c) c = none) := by
  constructor
  · intro clients client hf
    have h := is_tx_pending_cases clients st c c2 ts tid client t ht hf
    exact ⟨h.2.1, h.2.2.1, h.2.2.2.1⟩
  · intro cs1 cs2 cs3 cl1 cl2 cl3 hf1 hs1 hf2 hs2 hf3 hs3
    have h1 := is_tx_pending_cases cs1 st c c2 ts tid cl1 t ht hf1
    have h2 := is_tx_pending_cases cs2 st c c2 ts tid cl2 t ht hf2
    have h3 := is_tx_pending_cases cs3 st c c2 ts tid cl3 t ht hf3
    exact ⟨h1.2.2.2.1 hs1, h2.2.2.2.1 hs2, h3.2.1 hs3,
      storageGet_storageClear st c⟩

/-- Oracle stub answering `Pending` for every transaction id (chain 4). -/
def wClientPend : QuantumPortalClient :=
  { chain_id := 4, now := 5000000,
    finalizeResp := fun _ => Except.ok none,
    mineResp := fun _ => Except.ok none,
    statusResp := fun _ => Except.ok TransactionStatus.Pending }

/-- Oracle stub answering `Confirmed` for every transaction id (chain 4). -/
def wClientConf : QuantumPortalClient :=
  { chain_id := 4, now := 5000000,
    finalizeResp := fun _ => Except.ok none,
    mineResp := fun _ => Except.ok none,
    statusResp := fun _ => Except.ok TransactionStatus.Confirmed }

/-- Witness for C4: the `Pending, Pending, Confirmed` sequence at a concrete
stored `Mine` record. -/
theorem C4_witness :
    is_tx_pending [wClientPend]
        [(4, PendingTransaction.MineTransaction 4 9 100 55)]
        (PendingTransaction.MineTransaction 4 9 100 55) =
      (Res.ok true, [(4, PendingTransaction.MineTransaction 4 9 100 55)], []) ∧
    is_tx_pending [wClientConf]
        [(4, PendingTransaction.MineTransaction 4 9 100 55)]
        (PendingTransaction.MineTransaction 4 9 100 55) =
      (Res.ok false,
       storageClear [(4, PendingTransaction.MineTransaction 4 9 100 55)] 4,
       [Ev.evClear 4]) ∧
    storageGet
      (storageClear [(4, PendingTransaction.MineTransaction 4 9 100 55)] 4)
      4 = none := by
  have h :=
    (C4_terminal_statuses
      [(4, PendingTransaction.MineTransaction 4 9 100 55)] 4 9 100 55
      (PendingTransaction.MineTransaction 4 9 100 55) (Or.inl rfl)).2
      [wClientPend] [wClientPend] [wClientConf] wClientPend wClientPend
      wClientConf rfl rfl rfl rfl rfl rfl
  exact ⟨h.1, h.2.2.1, h.2.2.2⟩

/-- C10: feeding the `None` absence marker to the liveness classifier or to
`save_tx` panics (modelled as `Res.panicked`) instead of returning a result. -/
theorem C10_none_variant_panics (clients : List QuantumPortalClient)
    (st : Storage) :
    is_tx_pending clients st PendingTransaction.None = (Res.panicked, st, []) ∧
    save_tx st PendingTransaction.None = (Res.panicked, st, []) :=
  ⟨rfl, rfl⟩

/-- C9: encoding any well-formed `PendingTransaction` with the persisted
binary format and decoding it back yields an identical value. -/
theorem C9_encode_decode_roundtrip (t : PendingTransaction) (h : wf t) :
    decode (encode t) = some t := by
  cases t with
  | MineTransaction c1 c2 ts tid =>
      obtain ⟨h1, h2, h3, h4⟩ := h
      have e4 : decLE 32 (encLE 32 tid) = some (tid, []) := by
        have := decLE_encLE 32 tid [] h4
        rwa [List.append_nil] at this
      simp only [encode, decode, List.append_assoc]
      rw [decLE_encLE 8 c1 _ h1]
      simp only []
      rw [decLE_encLE 8 c2 _ h2]
      simp only []
      rw [decLE_encLE 8 ts _ h3]
      simp only []
      rw [e4]
      simp
  | FinalizeTransaction c ts tid =>
      obtain ⟨h1, h2, h3⟩ := h
      have e3 : decLE 32 (encLE 32 tid) = some (tid, []) := by
        have := decLE_encLE 32 tid [] h3
        rwa [List.append_nil] at this
      simp only [encode, decode, List.append_assoc]
      rw [decLE_encLE 8 c _ h1]
      simp only []
      rw [decLE_encLE 8 ts _ h2]
      simp only []
      rw [e3]
      simp
  | None => rfl

/-- Witness for C9 at the concrete record `Mine(5, 7, 1000, 66)`. -/
theorem C9_witness :
    wf (PendingTransaction.MineTransaction 5 7 1000 66) ∧
    decode (encode (PendingTransaction.MineTransaction 5 7 1000 66)) =
      some (PendingTransaction.MineTransaction 5 7 1000 66) :=
  ⟨by decide,
   C9_encode_decode_roundtrip (PendingTransaction.MineTransaction 5 7 1000 66)
     (by decide)⟩

/-- Client registered for chain 1 only; all RPC stubs benign. -/
def wClientOnly1 : QuantumPortalClient :=
  { chain_id := 1, now := 0,
    finalizeResp := fun _ => Except.ok none,
    mineResp := fun _ => Except.ok none,
    statusResp := fun _ => Except.ok TransactionStatus.NotFound }

/-- C5 (counter-evaluation): with only chain 1 registered, `process_pair`
with the unknown local chain 2 panics (the `unwrap` in `find_client_idx`)
instead of returning a configuration error. -/
theorem C5_unknown_chain_panics :
    process_pair [wClientOnly1] [] 1 2 = (Res.panicked, [], []) := rfl

/-- Client for chain 1 whose transaction-status oracle always errors. -/
def wClientOracleErr : QuantumPortalClient :=
  { chain_id := 1, now := 0,
    finalizeResp := fun _ => Except.ok none,
    mineResp := fun _ => Except.ok none,
    statusResp := fun _ => Except.error (ChainRequestError.err 7) }

/-- C6 (counter-evaluation): an oracle error raised while classifying a stored
record is turned into a panic by the `unwrap` inside `pending_transactions`
(the code's own comment reads `TODO: No unwrap here.`), not propagated as a
returned error: the cycle's outcome is `Res.panicked`, not `Res.fail`. -/
theorem C6_classification_error_panics :
    process_pair [wClientOracleErr]
        [(1, PendingTransaction.MineTransaction 1 2 0 5)] 2 1 =
      (Res.panicked, [(1, PendingTransaction.MineTransaction 1 2 0 5)], []) :=
  rfl

/-- C7: when a record is already stored under the sentinel id 9999,
`process_pair_with_lock` returns success with the state unchanged and an empty
event trace: the lock is not rewritten, nothing is saved or cleared, and
neither `finalize` nor `mine` is invoked. -/
theorem C7_lock_present_benign_skip (clients : List QuantumPortalClient)
    (st : Storage) (remote_chain local_chain : Nat) (tx : PendingTransaction)
    (h : storageGet st 9999 = some tx) :
    process_pair_with_lock clients st remote_chain local_chain =
      (Res.ok (), st, []) := by
  simp [process_pair_with_lock, lock_is_open, stored_pending_transactions,
    bindM, h]

/-- Witness for C7 with the sentinel slot concretely occupied. -/
theorem C7_witness :
    storageGet [(9999, lockTx)] 9999 = some lockTx ∧
    process_pair_with_lock [wClientOnly1] [(9999, lockTx)] 1 2 =
      (Res.ok (), [(9999, lockTx)], []) :=
  ⟨by decide,
   C7_lock_present_benign_skip [wClientOnly1] [(9999, lockTx)] 1 2 lockTx
     (by decide)⟩

/-- C2: when the record stored for the local chain classifies as still-live,
`process_pair` returns success with storage unchanged and an empty event trace:
no submission (`finalize`/`mine`) happens and no record is persisted. -/
theorem C2_live_pending_skips (clients : List QuantumPortalClient)
    (st : Storage) (remote_chain local_chain : Nat) (t : PendingTransaction)
    (hstored : storageGet st local_chain = some t)
    (hlive : (is_tx_pending clients st t).1 = Res.ok true) :
    process_pair clients st remote_chain local_chain = (Res.ok (), st, []) := by
  rcases hE : is_tx_pending clients st t with ⟨r, st2, tr⟩
  rw [hE] at hlive
  simp only [Prod.fst] at hlive
  subst hlive
  have hI := is_tx_pending_true_inert clients st t st2 tr hE
  rw [hI.1, hI.2] at hE
  have hp : pending_transactions clients st local_chain =
      (Res.ok [t], st, []) := by
    simp only [pending_transactions, stored_pending_transactions, hstored,
      bindM, filter_pending, hE]
    simp [filter_pending]
  simp [process_pair, hp, bindM]

/-- Witness for C2: a still-`Pending` stored `Mine` record blocks the cycle. -/
theorem C2_witness :
    storageGet [(4, PendingTransaction.MineTransaction 4 9 100 55)] 4 =
      some (PendingTransaction.MineTransaction 4 9 100 55) ∧
    (is_tx_pending [wClientPend]
        [(4, PendingTransaction.MineTransaction 4 9 100 55)]
        (PendingTransaction.MineTransaction 4 9 100 55)).1 = Res.ok true ∧
    process_pair [wClientPend]
        [(4, PendingTransaction.MineTransaction 4 9 100 55)] 9 4 =
      (Res.ok (), [(4, PendingTransaction.MineTransaction 4 9 100 55)], []) :=
  ⟨rfl, rfl,
   C2_live_pending_skips [wClientPend]
     [(4, PendingTransaction.MineTransaction 4 9 100 55)] 9 4
     (PendingTransaction.MineTransaction 4 9 100 55) rfl rfl⟩

/-- Opening the lock on a free sentinel slot. -/
theorem lock_is_open_none (st : Storage) (h : storageGet st 9999 = none) :
    lock_is_open st = (Res.ok true, st, []) := by
  simp [lock_is_open, stored_pending_transactions, bindM, h]

/-- `lock` saves the sentinel record. -/
theorem lock_eval (st : Storage) :
    lock st = (Res.ok (), storageSet st 9999 lockTx, [Ev.evSave lockTx]) := rfl

/-- `remove_lock` clears the sentinel slot. -/
theorem remove_lock_eval (st : Storage) :
    remove_lock st = (Res.ok (), storageClear st 9999, [Ev.evClear 9999]) := rfl

/-- C1: when the sentinel slot is empty, `process_pair_with_lock` acquires the
lock, runs `process_pair`, and clears the sentinel before returning on both the
success and the error path of the inner call, propagating an inner error
unchanged; the sentinel slot is empty in the returned state. -/
theorem C1_lock_scoped_release (clients : List QuantumPortalClient)
    (st : Storage) (remote_chain local_chain : Nat)
    (rv : Res Unit) (st4 : Storage) (tr : List Ev)
    (hopen : storageGet st 9999 = none)
    (hrun : process_pair clients (storageSet st 9999 lockTx) remote_chain
        local_chain = (rv, st4, tr))
    (hnp : rv ≠ Res.panicked) :
    process_pair_with_lock clients st remote_chain local_chain =
      ((match rv with
        | Res.ok _ => Res.ok ()
        | Res.fail e => Res.fail e
        | Res.panicked => Res.panicked),
       storageClear st4 9999,
       Ev.evSave lockTx :: (tr ++ [Ev.evClear 9999])) ∧
    storageGet (storageClear st4 9999) 9999 = none := by
  refine ⟨?_, storageGet_storageClear st4 9999⟩
  simp only [process_pair_with_lock, lock_is_open_none st hopen, bindM,
    Bool.not_true, Bool.false_eq_true, if_false, lock_eval,
    stored_pending_transactions, hrun]
  cases rv with
  | panicked => exact absurd rfl hnp
  | ok a => simp [remove_lock_eval]
  | fail e => simp [remove_lock_eval]

/-- Local-chain client (chain 4) whose `finalize` submits transaction 77. -/
def wFinalizer4 : QuantumPortalClient :=
  { chain_id := 4, now := 1000,
    finalizeResp := fun _ => Except.ok (some 77),
    mineResp := fun _ => Except.ok none,
    statusResp := fun _ => Except.ok TransactionStatus.Pending }

/-- Remote-chain client (chain 9) with benign stubs. -/
def wRemote9 : QuantumPortalClient :=
  { chain_id := 9, now := 2000,
    finalizeResp := fun _ => Except.ok none,
    mineResp := fun _ => Except.ok none,
    statusResp := fun _ => Except.ok TransactionStatus.Pending }

/-- Witness for C1: a successful inner cycle with the lock initially free. -/
theorem C1_witness :
    storageGet ([] : Storage) 9999 = none ∧
    process_pair_with_lock [wFinalizer4, wRemote9] [] 9 4 =
      (Res.ok (),
       storageClear [(4, PendingTransaction.FinalizeTransaction 4 1000 77)] 9999,
       Ev.evSave lockTx ::
         ([Ev.evFinalize 9,
           Ev.evSave (PendingTransaction.FinalizeTransaction 4 1000 77),
           Ev.evClear 9999] ++ [Ev.evClear 9999])) ∧
    storageGet
      (storageClear [(4, PendingTransaction.FinalizeTransaction 4 1000 77)]
        9999) 9999 = none := by
  have h := C1_lock_scoped_release [wFinalizer4, wRemote9] [] 9 4 (Res.ok ())
    [(4, PendingTransaction.FinalizeTransaction 4 1000 77)]
    [Ev.evFinalize 9,
     Ev.evSave (PendingTransaction.FinalizeTransaction 4 1000 77),
     Ev.evClear 9999] rfl rfl (by simp)
  exact ⟨rfl, h.1, h.2⟩

/-- The classifier's common body only ever emits storage-clear events. -/
theorem is_tx_pending_go_trace (clients : List QuantumPortalClient)
    (st : Storage) (t : PendingTransaction) (c ts tid : Nat) :
    ∀ e ∈ (is_tx_pending.is_tx_pending_go clients st t c ts tid).2.2,
      ∃ k, e = Ev.evClear k := by
  rw [is_tx_pending.is_tx_pending_go]
  split
  · simp
  · split
    · simp
    · cases hk : storage_key_for_tx t with
      | none => simp [bindM, remove_transaction_from_db, hk]
      | some k =>
          simp only [bindM, remove_transaction_from_db, hk, List.append_nil]
          intro e he
          rw [List.mem_singleton] at he
          exact ⟨k, he⟩
    · cases hk : storage_key_for_tx t with
      | none => simp [bindM, remove_transaction_from_db, hk]
      | some k =>
          simp only [bindM, remove_transaction_from_db, hk, List.append_nil]
          intro e he
          rw [List.mem_singleton] at he
          exact ⟨k, he⟩
    · simp
    · split
      · cases hk : storage_key_for_tx t with
        | none => simp [bindM, remove_transaction_from_db, hk]
        | some k =>
            simp only [bindM, remove_transaction_from_db, hk, List.append_nil]
            intro e he
            rw [List.mem_singleton] at he
            exact ⟨k, he⟩
      · simp

/-- The classifier only ever emits storage-clear events. -/
theorem is_tx_pending_trace (clients : List QuantumPortalClient)
    (st : Storage) (t : PendingTransaction) :
    ∀ e ∈ (is_tx_pending clients st t).2.2, ∃ k, e = Ev.evClear k := by
  cases t with
  | None => simp [is_tx_pending]
  | MineTransaction c1 c2 ts tid =>
      exact is_tx_pending_go_trace clients st _ c1 ts tid
  | FinalizeTransaction c ts tid =>
      exact is_tx_pending_go_trace clients st _ c ts tid

/-- The classification filter pass only ever emits storage-clear events. -/
theorem filter_pending_trace (clients : List QuantumPortalClient) :
    ∀ (l : List PendingTransaction) (st : Storage),
      ∀ e ∈ (filter_pending clients st l).2.2, ∃ k, e = Ev.evClear k := by
  intro l
  induction l with
  | nil => intro st e he; simp [filter_pending] at he
  | cons t rest ih =>
      intro st e he
      rw [filter_pending] at he
      split at he
      case _ b st2 tr heq =>
        have Ht : ∀ e ∈ tr, ∃ k, e = Ev.evClear k := by
          have := is_tx_pending_trace clients st t
          rwa [heq] at this
        split at he
        case _ l2 st3 tr2 heq2 =>
          have Ht2 : ∀ e ∈ tr2, ∃ k, e = Ev.evClear k := by
            have := ih st2
            rwa [heq2] at this
          simp only [List.mem_append] at he
          rcases he with he | he
          · exact Ht e he
          · exact Ht2 e he
        case _ e2 st3 tr2 heq2 =>
          have Ht2 : ∀ e ∈ tr2, ∃ k, e = Ev.evClear k := by
            have := ih st2
            rwa [heq2] at this
          simp only [List.mem_append] at he
          rcases he with he | he
          · exact Ht e he
          · exact Ht2 e he
        case _ st3 tr2 heq2 =>
          have Ht2 : ∀ e ∈ tr2, ∃ k, e = Ev.evClear k := by
            have := ih st2
            rwa [heq2] at this
          simp only [List.mem_append] at he
          rcases he with he | he
          · exact Ht e he
          · exact Ht2 e he
      case _ e2 st2 tr heq =>
        have Ht : ∀ e ∈ tr, ∃ k, e = Ev.evClear k := by
          have := is_tx_pending_trace clients st t
          rwa [heq] at this
        exact Ht e he
      case _ st2 tr heq =>
        have Ht : ∀ e ∈ tr, ∃ k, e = Ev.evClear k := by
          have := is_tx_pending_trace clients st t
          rwa [heq] at this
        exact Ht e he

/-- Step 1 of `process_pair` only ever emits storage-clear events: the
classification pass never invokes `finalize` or `mine` and never saves. -/
theorem pending_transactions_trace (clients : List QuantumPortalClient)
    (st : Storage) (chain_id : Nat) :
    ∀ e ∈ (pending_transactions clients st chain_id).2.2,
      ∃ k, e = Ev.evClear k := by
  intro e he
  apply filter_pending_trace clients
    (match storageGet st chain_id with
     | none => []
     | some v => [v]) st
  simpa [pending_transactions, stored_pending_transactions, bindM] using he

/-- C8: in a `process_pair` cycle whose classification pass found no live
record, finalize is attempted before mine (the classification trace `tr1`
contains only storage-clear events, and the submission events appear in order
after it): when finalize returns a transaction id, `Finalize{localChain, now,
txId}` is persisted and no `evMine` event occurs; only when finalize returned
nothing is mine attempted, and when mine returns an id
`Mine{localChain, remoteChain, now, txId}` is persisted. -/
theorem C8_finalize_before_mine (clients : List QuantumPortalClient)
    (st st1 : Storage) (tr1 : List Ev) (remote_chain local_chain : Nat)
    (lc rc : QuantumPortalClient)
    (hp : pending_transactions clients st local_chain = (Res.ok [], st1, tr1))
    (hl : find_client_idx clients local_chain = some lc)
    (hr : find_client_idx clients remote_chain = some rc) :
    (∀ e ∈ tr1, ∃ k, e = Ev.evClear k) ∧
    (∀ txid, lc.finalizeResp remote_chain = Except.ok (some txid) →
      process_pair clients st remote_chain local_chain =
        (Res.ok (),
         storageClear (storageSet st1 local_chain
           (PendingTransaction.FinalizeTransaction local_chain lc.now txid))
           9999,
         tr1 ++ [Ev.evFinalize remote_chain,
           Ev.evSave (PendingTransaction.FinalizeTransaction local_chain
             lc.now txid),
           Ev.evClear 9999])) ∧
    (∀ mtx, lc.finalizeResp remote_chain = Except.ok none →
      lc.mineResp rc.chain_id = Except.ok (some mtx) →
      process_pair clients st remote_chain local_chain =
        (Res.ok (),
         storageClear (storageSet st1 local_chain
           (PendingTransaction.MineTransaction local_chain remote_chain
             lc.now mtx)) 9999,
         tr1 ++ [Ev.evFinalize remote_chain, Ev.evMine rc.chain_id,
           Ev.evSave (PendingTransaction.MineTransaction local_chain
             remote_chain lc.now mtx),
           Ev.evClear 9999])) := by
  refine ⟨?_, fun txid hfin => ?_, fun mtx hfin hmine => ?_⟩
  · have := pending_transactions_trace clients st local_chain
    rwa [hp] at this
  · simp [process_pair, hp, bindM, hl, hr, hfin, prependTrace, save_tx,
      storage_key_for_tx, remove_lock_eval]
  · simp [process_pair, hp, bindM, hl, hr, hfin, hmine, prependTrace, save_tx,
      storage_key_for_tx, remove_lock_eval]

/-- Witness for C8: with clients for chains 4 and 9 and chain 4's finalize
returning transaction id 77, `process_pair(9, 4)` persists
`Finalize(4, 1000, 77)` and emits no mine event. -/
theorem C8_witness :
    pending_transactions [wFinalizer4, wRemote9] [] 4 = (Res.ok [], [], []) ∧
    wFinalizer4.finalizeResp 9 = Except.ok (some 77) ∧
    process_pair [wFinalizer4, wRemote9] [] 9 4 =
      (Res.ok (),
       storageClear (storageSet [] 4
         (PendingTransaction.FinalizeTransaction 4 wFinalizer4.now 77)) 9999,
       [] ++ [Ev.evFinalize 9,
         Ev.evSave (PendingTransaction.FinalizeTransaction 4 wFinalizer4.now 77),
         Ev.evClear 9999]) :=
  ⟨rfl, rfl,
   (C8_finalize_before_mine [wFinalizer4, wRemote9] [] [] [] 9 4
     wFinalizer4 wRemote9 rfl rfl rfl).2.1 77 rfl⟩

end QP
